import Mathlib

/-!
Verification of the audio transcription script (`transcribe.py`).

Modelling conventions:
* Python floats (seconds, probabilities, durations) are modelled as `ℚ`.
* `Path` objects are modelled by a directory part plus a final-component name
  (`pathlib.Path.with_suffix` only ever touches the final component).
* The external engine (`faster_whisper`) and the progress bar (`tqdm`) are
  collaborators; the script's interaction with them is recorded as a trace of
  events.  `tqdm.update(d)` adds `d` to the bar position `n` (initially `0`);
  `tqdm.close()` leaves the position unchanged.
* `sys.exit(1)` is recorded as a terminal `exited 1` event; the batch driver
  stops as soon as a trace ends in an exit event (process termination).
-/

/-- Python `int(q)` on a real value: truncation toward zero. -/
def pyInt (q : ℚ) : ℤ := if 0 ≤ q then ⌊q⌋ else -⌊-q⌋

/-- Python float `//` (floor division): `a // b` is the floor of `a / b`,
returned as a float. -/
def pyFloorDiv (a b : ℚ) : ℚ := ((⌊a / b⌋ : ℤ) : ℚ)

/-- Python float `%`: `a % b = a - b * (a // b)` (result has the sign of `b`). -/
def pyMod (a b : ℚ) : ℚ := a - b * ((⌊a / b⌋ : ℤ) : ℚ)

/-- Python `f"{z:02d}"`: decimal rendering, zero-padded on the left to
width 2 (a negative sign counts toward the width). -/
def pad2 (z : ℤ) : String := if 0 ≤ z ∧ z < 10 then "0" ++ toString z else toString z

/-- Function `format_timestamp` from `transcribe.py`:
`h = int(seconds // 3600)`, `m = int((seconds % 3600) // 60)`,
`s = int(seconds % 60)`, rendered as `f"{h:02d}:{m:02d}:{s:02d}"`. -/
def format_timestamp (seconds : ℚ) : String :=
  pad2 (pyInt (pyFloorDiv seconds 3600)) ++ ":" ++
    pad2 (pyInt (pyFloorDiv (pyMod seconds 3600) 60)) ++ ":" ++
    pad2 (pyInt (pyMod seconds 60))

/-- Specification-side rendering of a whole number of seconds as zero-padded
`HH:MM:SS` by integer division: hours are the unbounded quotient `n / 3600`
(no 24-hour wraparound), minutes `n % 3600 / 60`, seconds `n % 60`. -/
def hhmmss (n : ℕ) : String :=
  pad2 (n / 3600 : ℕ) ++ ":" ++ pad2 (n % 3600 / 60 : ℕ) ++ ":" ++ pad2 (n % 60 : ℕ)

/-- Python `str.strip()`: remove leading and trailing whitespace
(ASCII whitespace suffices for the strings handled here). -/
def py_strip (s : String) : String :=
  String.mk (((s.data.dropWhile Char.isWhitespace).reverse.dropWhile Char.isWhitespace).reverse)

/-- Python `c * k` for a one-character string: `k` copies of the character. -/
def repeatChar (k : ℕ) (c : Char) : String := String.mk (List.replicate k c)

/-- One timed text segment produced by the engine (`segment.start`,
`segment.end`, `segment.text`; the second field is `end` in Python, which is a
reserved word in Lean). -/
structure Segment where
  start : ℚ
  end_ : ℚ
  text : String
deriving DecidableEq

/-- The engine's one-time summary (`info.language`,
`info.language_probability`, `info.duration`). -/
structure TranscriptionInfo where
  language : String
  language_probability : ℚ
  duration : ℚ
deriving DecidableEq

/-- A filesystem path, split into the directory part (with trailing
separator, untouched by `with_suffix`) and the final component (`path.name`). -/
structure PyPath where
  dir : String
  name : String
deriving DecidableEq

/-- The full textual form of a path (`str(path)`). -/
def PyPath.str (p : PyPath) : String := p.dir ++ p.name

/-- The `pathlib` suffix of a final component (CPython: `i = name.rfind('.')`;
the suffix is `name[i:]` when `0 < i < len(name) - 1`, else empty). -/
def py_suffix (cs : List Char) : List Char :=
  match ((List.range cs.length).filter (fun i => cs.getD i ' ' = '.')).getLast? with
  | none => []
  | some i => if 0 < i ∧ i < cs.length - 1 then cs.drop i else []

/-- The `pathlib` `with_suffix` operation on a final component: replace a non-empty old
suffix, append when there is none. -/
def with_suffix_name (name suffix : List Char) : List Char :=
  let old := py_suffix name
  if old = [] then name ++ suffix else name.take (name.length - old.length) ++ suffix

/-- Python `path.with_suffix(suffix)`: only the final component changes. -/
def PyPath.with_suffix (p : PyPath) (suffix : String) : PyPath :=
  ⟨p.dir, String.mk (with_suffix_name p.name.data suffix.data)⟩

/-- Round half to even at integer precision (rounding mode of Python float
formatting, here at exact rational precision). -/
def round_half_even (x : ℚ) : ℤ :=
  if x - (⌊x⌋ : ℚ) < 1 / 2 then ⌊x⌋
  else if 1 / 2 < x - (⌊x⌋ : ℚ) then ⌊x⌋ + 1
  else if Even ⌊x⌋ then ⌊x⌋ else ⌊x⌋ + 1

/-- Python `f"{q:.2f}"` at rational precision (used only in a diagnostic
print; binary-float rounding is abstracted to exact rational rounding). -/
def format_2f (q : ℚ) : String :=
  (if q < 0 then "-" else "") ++
    toString (round_half_even (|q| * 100) / 100) ++ "." ++
    pad2 (round_half_even (|q| * 100) % 100)

/-- One transcript display line:
`f"[{format_timestamp(segment.start)} -> {format_timestamp(segment.end)}]  {segment.text.strip()}"`. -/
def segment_line (seg : Segment) : String :=
  "[" ++ format_timestamp seg.start ++ " -> " ++ format_timestamp seg.end_ ++ "]  " ++
    py_strip seg.text

/-- The content written to the output file: the header block followed by the
formatted lines joined with newlines. -/
def transcript_content (name : String) (info : TranscriptionInfo) (segs : List Segment) : String :=
  "Transcriptie: " ++ name ++ "\n" ++
    "Taal: " ++ info.language ++ "\n" ++
    "Duur: " ++ format_timestamp info.duration ++ "\n" ++
    repeatChar 60 '=' ++ "\n\n" ++
    String.intercalate "\n" (segs.map segment_line)

/-- Observable actions of the script, in program order. -/
inductive Event where
  | printed (s : String)
  | modelLoaded (model_size device compute_type : String)
  | engineCalled (path language : String) (beam_size : ℕ)
  | progressInit (total : ℚ)
  | progressUpdate (delta : ℚ)
  | progressClosed (position : ℚ)
  | fileWritten (path content : String)
  | exited (code : ℕ)
deriving DecidableEq

/-- The progress updates issued by the segment loop: each segment issues
`progress.update(segment.end - progress.n)` where `n` is the bar position. -/
def loop_events (n : ℚ) : List Segment → List Event
  | [] => []
  | seg :: rest => .progressUpdate (seg.end_ - n) :: loop_events (n + (seg.end_ - n)) rest

/-- The bar position after the segment loop, starting from position `n`. -/
def progress_after (n : ℚ) : List Segment → ℚ
  | [] => n
  | seg :: rest => progress_after (n + (seg.end_ - n)) rest

/-- Every bar position reached during the loop (initial position included). -/
def positions_from (n : ℚ) : List Segment → List ℚ
  | [] => [n]
  | seg :: rest => n :: positions_from (n + (seg.end_ - n)) rest

/-- The update deltas issued during the loop, starting from position `n`. -/
def updates_from (n : ℚ) : List Segment → List ℚ
  | [] => []
  | seg :: rest => (seg.end_ - n) :: updates_from (n + (seg.end_ - n)) rest

/-- Function `transcribe(audio_path, model_size="large-v3", language="nl")` from
`transcribe.py`, as the trace of its observable actions.  `fsExists` is the
filesystem (`path.exists()`); `engine` is the external model's reply (summary
and lazy segment sequence, already fixed since the engine is deterministic for
a given file). -/
def transcribe (fsExists : PyPath → Bool) (engine : TranscriptionInfo × List Segment)
    (audio_path : PyPath) (model_size : String := "large-v3")
    (language : String := "nl") : List Event :=
  if fsExists audio_path = false then
    [.printed ("Bestand niet gevonden: " ++ audio_path.str), .exited 1]
  else
    [Event.printed ("Model laden (" ++ model_size ++ ")..."),
     Event.modelLoaded model_size "cpu" "int8",
     Event.printed ("Transcriberen: " ++ audio_path.name),
     Event.engineCalled audio_path.str language 5,
     Event.printed ("Taal gedetecteerd: " ++ engine.1.language ++ " (waarschijnlijkheid: " ++
       format_2f engine.1.language_probability ++ ")"),
     Event.printed ("Duur: " ++ format_timestamp engine.1.duration),
     Event.printed (repeatChar 60 '-'),
     Event.progressInit engine.1.duration] ++
    loop_events 0 engine.2 ++
    [Event.progressClosed (progress_after 0 engine.2),
     Event.fileWritten (audio_path.with_suffix ".txt").str
       (transcript_content audio_path.name engine.1 engine.2),
     Event.printed ("\nOpgeslagen: " ++ (audio_path.with_suffix ".txt").str)]

/-- Whether a trace ends in process termination (`sys.exit`). -/
def ends_in_exit (t : List Event) : Bool :=
  match t.getLast? with
  | some (.exited _) => true
  | _ => false

/-- The `__main__` batch driver: one `transcribe` call per listed path, a
separator print after each; an exit inside `transcribe` terminates the whole
process, so nothing after it runs. -/
def run_batch (fsExists : PyPath → Bool)
    (engineFor : PyPath → TranscriptionInfo × List Segment) : List PyPath → List Event
  | [] => []
  | f :: rest =>
    let t := transcribe fsExists (engineFor f) f
    if ends_in_exit t then t
    else t ++ [Event.printed ("\n" ++ repeatChar 60 '=' ++ "\n")] ++
      run_batch fsExists engineFor rest

/-- The hard-coded input list of `__main__` (`os.path.expanduser` resolved
against the home directory). -/
def audio_files (home : String) : List PyPath :=
  [⟨home ++ "/Downloads/", "Helene en AnneMarie.m4a"⟩,
   ⟨home ++ "/Downloads/", "Joke Swiebel.m4a"⟩]

/-- The file writes of a trace, in order. -/
def writes_of : List Event → List (String × String)
  | [] => []
  | .fileWritten p c :: rest => (p, c) :: writes_of rest
  | _ :: rest => writes_of rest

/-- The progress-bar update deltas of a trace, in order. -/
def updates_of : List Event → List ℚ
  | [] => []
  | .progressUpdate d :: rest => d :: updates_of rest
  | _ :: rest => updates_of rest

/-- The positions at which the progress bar was closed, in order. -/
def closed_positions : List Event → List ℚ
  | [] => []
  | .progressClosed q :: rest => q :: closed_positions rest
  | _ :: rest => closed_positions rest

/-- Replay the file writes of a trace against a filesystem (path ↦ content);
mode `"w"` truncates, so a write replaces the whole previous content. -/
def apply_writes (fs : String → Option String) : List Event → (String → Option String)
  | [] => fs
  | .fileWritten p c :: rest => apply_writes (fun x => if x = p then some c else fs x) rest
  | _ :: rest => apply_writes fs rest

/- ### Theorems -/

theorem floor_div_nat_of_nonneg (q : ℚ) (k : ℕ) (hq : 0 ≤ q) (hk : 0 < k) :
    ⌊q / (k : ℚ)⌋ = ((⌊q⌋₊ / k : ℕ) : ℤ) := by
  rw [← Int.natCast_floor_eq_floor (div_nonneg hq (by positivity))]
  congr 1
  exact Nat.floor_div_nat q k

theorem natFloor_sub_natCast (q : ℚ) (c : ℕ) : ⌊q - (c : ℚ)⌋₊ = ⌊q⌋₊ - c :=
  Nat.floor_sub_nat q c

/-- Key lemma for C1: on non-negative inputs `format_timestamp` computes the
`HH:MM:SS` decomposition of the integer (truncated) number of seconds. -/
theorem format_timestamp_eq_hhmmss (q : ℚ) (hq : 0 ≤ q) :
    format_timestamp q = hhmmss ⌊q⌋₊ := by
  set N := ⌊q⌋₊ with hN
  have hNq : (N : ℚ) ≤ q := Nat.floor_le hq
  have hfd3600 : ⌊q / (3600 : ℚ)⌋ = ((N / 3600 : ℕ) : ℤ) := by
    have := floor_div_nat_of_nonneg q 3600 hq (by norm_num)
    norm_num at this ⊢
    exact this
  have hh : pyInt (pyFloorDiv q 3600) = ((N / 3600 : ℕ) : ℤ) := by
    rw [pyInt, pyFloorDiv, hfd3600, if_pos (by positivity), Int.floor_intCast]
  have hmod3600 : pyMod q 3600 = q - ((3600 * (N / 3600) : ℕ) : ℚ) := by
    rw [pyMod, hfd3600, Int.cast_natCast, Nat.cast_mul, Nat.cast_ofNat]
  have hcle : ((3600 * (N / 3600) : ℕ) : ℚ) ≤ q := by
    calc ((3600 * (N / 3600) : ℕ) : ℚ) ≤ (N : ℚ) := by
          exact_mod_cast Nat.cast_le.mpr (Nat.mul_div_le N 3600)
      _ ≤ q := hNq
  have hm : pyInt (pyFloorDiv (pyMod q 3600) 60) = ((N % 3600 / 60 : ℕ) : ℤ) := by
    have hnn : 0 ≤ q - ((3600 * (N / 3600) : ℕ) : ℚ) := by linarith
    have h1 : ⌊(q - ((3600 * (N / 3600) : ℕ) : ℚ)) / (60 : ℚ)⌋
        = ((⌊q - ((3600 * (N / 3600) : ℕ) : ℚ)⌋₊ / 60 : ℕ) : ℤ) := by
      have := floor_div_nat_of_nonneg (q - ((3600 * (N / 3600) : ℕ) : ℚ)) 60 hnn (by norm_num)
      norm_num at this ⊢
      exact this
    have h2 : ⌊q - ((3600 * (N / 3600) : ℕ) : ℚ)⌋₊ = N % 3600 := by
      rw [natFloor_sub_natCast, ← hN]
      omega
    rw [pyInt, pyFloorDiv, hmod3600, h1, h2, if_pos (by positivity), Int.floor_intCast]
  have hfd60 : ⌊q / (60 : ℚ)⌋ = ((N / 60 : ℕ) : ℤ) := by
    have := floor_div_nat_of_nonneg q 60 hq (by norm_num)
    norm_num at this ⊢
    exact this
  have hmod60 : pyMod q 60 = q - ((60 * (N / 60) : ℕ) : ℚ) := by
    rw [pyMod, hfd60, Int.cast_natCast, Nat.cast_mul, Nat.cast_ofNat]
  have hcle60 : ((60 * (N / 60) : ℕ) : ℚ) ≤ q := by
    calc ((60 * (N / 60) : ℕ) : ℚ) ≤ (N : ℚ) := by
          exact_mod_cast Nat.cast_le.mpr (Nat.mul_div_le N 60)
      _ ≤ q := hNq
  have hs : pyInt (pyMod q 60) = ((N % 60 : ℕ) : ℤ) := by
    have hnn : 0 ≤ q - ((60 * (N / 60) : ℕ) : ℚ) := by linarith
    rw [pyInt, hmod60, if_pos hnn]
    have h1 : ⌊q - ((60 * (N / 60) : ℕ) : ℚ)⌋₊ = N % 60 := by
      rw [natFloor_sub_natCast, ← hN]
      omega
    rw [← Int.natCast_floor_eq_floor hnn, h1]
  rw [format_timestamp, hhmmss, hh, hm, hs]

/-- C1: for every non-negative number of seconds, `format_timestamp` returns
the zero-padded `HH:MM:SS` decomposition of the truncated (floored) number of
seconds, with unbounded hours and minutes and seconds below 60; in particular
`format_timestamp 0 = "00:00:00"`, `format_timestamp 3661 = "01:01:01"` and
`format_timestamp 59.9 = "00:00:59"` (truncation, not rounding). -/
theorem C1_format_timestamp_correct :
    (∀ q : ℚ, 0 ≤ q →
      format_timestamp q = hhmmss ⌊q⌋₊ ∧
      ∃ h m s : ℕ, m < 60 ∧ s < 60 ∧
        format_timestamp q = pad2 (h : ℤ) ++ ":" ++ pad2 (m : ℤ) ++ ":" ++ pad2 (s : ℤ) ∧
        h = ⌊q⌋₊ / 3600 ∧ m = ⌊q⌋₊ % 3600 / 60 ∧ s = ⌊q⌋₊ % 60) ∧
    format_timestamp 0 = "00:00:00" ∧
    format_timestamp 3661 = "01:01:01" ∧
    format_timestamp (599 / 10) = "00:00:59" := by
  have hmain : ∀ q : ℚ, 0 ≤ q → format_timestamp q = hhmmss ⌊q⌋₊ :=
    format_timestamp_eq_hhmmss
  refine ⟨fun q hq => ⟨hmain q hq, ?_⟩, ?_, ?_, ?_⟩
  · exact ⟨⌊q⌋₊ / 3600, ⌊q⌋₊ % 3600 / 60, ⌊q⌋₊ % 60, by omega, by omega,
      by rw [hmain q hq, hhmmss], rfl, rfl, rfl⟩
  · rw [hmain 0 le_rfl, Nat.floor_zero]
    decide
  · rw [hmain 3661 (by norm_num), Nat.floor_ofNat]
    decide
  · rw [hmain (599 / 10) (by norm_num)]
    have : ⌊(599 / 10 : ℚ)⌋₊ = 59 :=
      (Nat.floor_eq_iff (by norm_num)).mpr ⟨by norm_num, by norm_num⟩
    rw [this]
    decide

/-- Witness for C1 at the concrete input 3661.5 seconds. -/
theorem C1_format_timestamp_correct_witness :
    0 ≤ (7323 / 2 : ℚ) ∧ format_timestamp (7323 / 2) = hhmmss ⌊(7323 / 2 : ℚ)⌋₊ :=
  ⟨by norm_num, (C1_format_timestamp_correct.1 (7323 / 2) (by norm_num)).1⟩

theorem writes_of_append (a b : List Event) :
    writes_of (a ++ b) = writes_of a ++ writes_of b := by
  induction a with
  | nil => rfl
  | cons e rest ih => cases e <;> simp [writes_of, ih]

theorem closed_positions_append (a b : List Event) :
    closed_positions (a ++ b) = closed_positions a ++ closed_positions b := by
  induction a with
  | nil => rfl
  | cons e rest ih => cases e <;> simp [closed_positions, ih]

theorem updates_of_append (a b : List Event) :
    updates_of (a ++ b) = updates_of a ++ updates_of b := by
  induction a with
  | nil => rfl
  | cons e rest ih => cases e <;> simp [updates_of, ih]

theorem writes_of_loop (n : ℚ) (segs : List Segment) :
    writes_of (loop_events n segs) = [] := by
  induction segs generalizing n with
  | nil => rfl
  | cons s rest ih => simp [loop_events, writes_of, ih]

theorem closed_positions_loop (n : ℚ) (segs : List Segment) :
    closed_positions (loop_events n segs) = [] := by
  induction segs generalizing n with
  | nil => rfl
  | cons s rest ih => simp [loop_events, closed_positions, ih]

theorem updates_of_loop (n : ℚ) (segs : List Segment) :
    updates_of (loop_events n segs) = updates_from n segs := by
  induction segs generalizing n with
  | nil => rfl
  | cons s rest ih => simp [loop_events, updates_of, updates_from, ih]

theorem transcribe_of_exists (fsE : PyPath → Bool) (engine : TranscriptionInfo × List Segment)
    (p : PyPath) (ms lang : String) (h : fsE p = true) :
    transcribe fsE engine p ms lang =
      [Event.printed ("Model laden (" ++ ms ++ ")..."),
       Event.modelLoaded ms "cpu" "int8",
       Event.printed ("Transcriberen: " ++ p.name),
       Event.engineCalled p.str lang 5,
       Event.printed ("Taal gedetecteerd: " ++ engine.1.language ++ " (waarschijnlijkheid: " ++
         format_2f engine.1.language_probability ++ ")"),
       Event.printed ("Duur: " ++ format_timestamp engine.1.duration),
       Event.printed (repeatChar 60 '-'),
       Event.progressInit engine.1.duration] ++
      loop_events 0 engine.2 ++
      [Event.progressClosed (progress_after 0 engine.2),
       Event.fileWritten (p.with_suffix ".txt").str
         (transcript_content p.name engine.1 engine.2),
       Event.printed ("\nOpgeslagen: " ++ (p.with_suffix ".txt").str)] := by
  rw [transcribe, if_neg (by simp [h])]

theorem writes_of_transcribe (fsE : PyPath → Bool) (info : TranscriptionInfo)
    (segs : List Segment) (p : PyPath) (ms lang : String) (h : fsE p = true) :
    writes_of (transcribe fsE (info, segs) p ms lang) =
      [((p.with_suffix ".txt").str, transcript_content p.name info segs)] := by
  rw [transcribe_of_exists fsE (info, segs) p ms lang h, writes_of_append, writes_of_append,
    writes_of_loop]
  rfl

theorem closed_positions_transcribe (fsE : PyPath → Bool) (info : TranscriptionInfo)
    (segs : List Segment) (p : PyPath) (ms lang : String) (h : fsE p = true) :
    closed_positions (transcribe fsE (info, segs) p ms lang) = [progress_after 0 segs] := by
  rw [transcribe_of_exists fsE (info, segs) p ms lang h, closed_positions_append,
    closed_positions_append, closed_positions_loop]
  rfl

theorem updates_of_transcribe (fsE : PyPath → Bool) (info : TranscriptionInfo)
    (segs : List Segment) (p : PyPath) (ms lang : String) (h : fsE p = true) :
    updates_of (transcribe fsE (info, segs) p ms lang) = updates_from 0 segs := by
  rw [transcribe_of_exists fsE (info, segs) p ms lang h, updates_of_append, updates_of_append,
    updates_of_loop]
  simp [updates_of]

/-- C4: for a path that does not exist, `transcribe` prints the (Dutch)
user-facing error message and terminates with exit code 1, and the trace
contains no model-loading event whatsoever. -/
theorem C4_missing_file_exits_before_model :
    ∀ (fsE : PyPath → Bool) (engine : TranscriptionInfo × List Segment)
      (p : PyPath) (ms lang : String), fsE p = false →
      transcribe fsE engine p ms lang =
        [Event.printed ("Bestand niet gevonden: " ++ p.str), Event.exited 1] ∧
      ∀ a b c : String, Event.modelLoaded a b c ∉ transcribe fsE engine p ms lang := by
  intro fsE engine p ms lang h
  have ht : transcribe fsE engine p ms lang =
      [Event.printed ("Bestand niet gevonden: " ++ p.str), Event.exited 1] := by
    rw [transcribe, if_pos h]
  refine ⟨ht, ?_⟩
  intro a b c
  rw [ht]
  simp

/-- Witness for C4: a filesystem on which no path exists. -/
theorem C4_missing_file_exits_before_model_witness :
    transcribe (fun _ => false) (⟨"nl", 1, 0⟩, []) ⟨"/tmp/", "geen.m4a"⟩ "large-v3" "nl" =
      [Event.printed ("Bestand niet gevonden: " ++ (PyPath.mk "/tmp/" "geen.m4a").str),
       Event.exited 1] :=
  (C4_missing_file_exits_before_model (fun _ => false) (⟨"nl", 1, 0⟩, [])
    ⟨"/tmp/", "geen.m4a"⟩ "large-v3" "nl" rfl).1

theorem format_timestamp_five_halves : format_timestamp (5 / 2) = "00:00:02" := by
  rw [format_timestamp_eq_hhmmss (5 / 2) (by norm_num)]
  have : ⌊(5 / 2 : ℚ)⌋₊ = 2 :=
    (Nat.floor_eq_iff (by norm_num)).mpr ⟨by norm_num, by norm_num⟩
  rw [this]
  decide

theorem format_timestamp_ten : format_timestamp 10 = "00:00:10" := by
  rw [format_timestamp_eq_hhmmss 10 (by norm_num), Nat.floor_ofNat]
  decide

theorem format_timestamp_zero : format_timestamp 0 = "00:00:00" := by
  rw [format_timestamp_eq_hhmmss 0 le_rfl, Nat.floor_zero]
  decide

theorem segment_line_stub_one :
    segment_line ⟨0, 5 / 2, " hallo "⟩ = "[00:00:00 -> 00:00:02]  hallo" := by
  show "[" ++ format_timestamp 0 ++ " -> " ++ format_timestamp (5 / 2) ++ "]  " ++
      py_strip " hallo " = "[00:00:00 -> 00:00:02]  hallo"
  rw [format_timestamp_zero, format_timestamp_five_halves]
  decide

theorem segment_line_stub_two :
    segment_line ⟨5 / 2, 10, "wereld"⟩ = "[00:00:02 -> 00:00:10]  wereld" := by
  show "[" ++ format_timestamp (5 / 2) ++ " -> " ++ format_timestamp 10 ++ "]  " ++
      py_strip "wereld" = "[00:00:02 -> 00:00:10]  wereld"
  rw [format_timestamp_five_halves, format_timestamp_ten]
  decide

/-- C2: on an existing input, `transcribe` performs exactly one file write, at
the input path with its suffix replaced by `.txt`, whose content is the header
block (`Transcriptie:` line, `Taal:` line, `Duur:` line, a line of 60 `=`
characters, a blank line) followed by one `[HH:MM:SS -> HH:MM:SS]  <text>`
line per segment — text stripped, timestamps truncated to whole seconds —
joined with newlines in segment order; for the stub summary
(`nl`, 0.97, 10.0) with segments (0.0, 2.5, " hallo "), (2.5, 10.0, "wereld")
the body is exactly the two lines of the claim. -/
theorem C2_transcribe_writes_exact_content :
    (∀ (fsE : PyPath → Bool) (info : TranscriptionInfo) (segs : List Segment)
        (p : PyPath) (ms lang : String), fsE p = true →
      writes_of (transcribe fsE (info, segs) p ms lang) =
        [((p.with_suffix ".txt").str,
          "Transcriptie: " ++ p.name ++ "\n" ++
            "Taal: " ++ info.language ++ "\n" ++
            "Duur: " ++ format_timestamp info.duration ++ "\n" ++
            repeatChar 60 '=' ++ "\n\n" ++
            String.intercalate "\n" (segs.map (fun seg =>
              "[" ++ format_timestamp seg.start ++ " -> " ++ format_timestamp seg.end_ ++
                "]  " ++ py_strip seg.text)))]) ∧
    String.intercalate "\n"
        (([⟨0, 5 / 2, " hallo "⟩, ⟨5 / 2, 10, "wereld"⟩] : List Segment).map segment_line) =
      "[00:00:00 -> 00:00:02]  hallo" ++ "\n" ++ "[00:00:02 -> 00:00:10]  wereld" := by
  constructor
  · intro fsE info segs p ms lang h
    rw [writes_of_transcribe fsE info segs p ms lang h]
    rfl
  · rw [List.map_cons, List.map_cons, List.map_nil, segment_line_stub_one,
      segment_line_stub_two]
    decide

/-- Witness for C2 on the stub engine output of the claim. -/
theorem C2_transcribe_writes_exact_content_witness :
    writes_of (transcribe (fun _ => true)
        (⟨"nl", 97 / 100, 10⟩, [⟨0, 5 / 2, " hallo "⟩, ⟨5 / 2, 10, "wereld"⟩])
        ⟨"/home/u/Downloads/", "opname.m4a"⟩ "large-v3" "nl") =
      [(((PyPath.mk "/home/u/Downloads/" "opname.m4a").with_suffix ".txt").str,
        "Transcriptie: " ++ "opname.m4a" ++ "\n" ++
          "Taal: " ++ "nl" ++ "\n" ++
          "Duur: " ++ format_timestamp 10 ++ "\n" ++
          repeatChar 60 '=' ++ "\n\n" ++
          String.intercalate "\n"
            (([⟨0, 5 / 2, " hallo "⟩, ⟨5 / 2, 10, "wereld"⟩] : List Segment).map (fun seg =>
              "[" ++ format_timestamp seg.start ++ " -> " ++ format_timestamp seg.end_ ++
                "]  " ++ py_strip seg.text)))] :=
  C2_transcribe_writes_exact_content.1 (fun _ => true) ⟨"nl", 97 / 100, 10⟩
    [⟨0, 5 / 2, " hallo "⟩, ⟨5 / 2, 10, "wereld"⟩]
    ⟨"/home/u/Downloads/", "opname.m4a"⟩ "large-v3" "nl" rfl

/-- C10: with an empty segment sequence on an existing input, `transcribe`
still writes the output file, containing exactly the header block (filename,
language, duration, 60 `=` separator line, blank line) and an empty body, and
the progress bar is closed at position 0. -/
theorem C10_empty_segments_header_only :
    ∀ (fsE : PyPath → Bool) (info : TranscriptionInfo) (p : PyPath) (ms lang : String),
      fsE p = true →
      writes_of (transcribe fsE (info, []) p ms lang) =
        [((p.with_suffix ".txt").str,
          "Transcriptie: " ++ p.name ++ "\n" ++
            "Taal: " ++ info.language ++ "\n" ++
            "Duur: " ++ format_timestamp info.duration ++ "\n" ++
            repeatChar 60 '=' ++ "\n\n")] ∧
      closed_positions (transcribe fsE (info, []) p ms lang) = [0] := by
  intro fsE info p ms lang h
  constructor
  · rw [writes_of_transcribe fsE info [] p ms lang h]
    simp [transcript_content, show String.intercalate "\n" ([] : List String) = "" from rfl]
  · rw [closed_positions_transcribe fsE info [] p ms lang h]
    rfl

/-- Witness for C10 on a concrete empty engine reply. -/
theorem C10_empty_segments_header_only_witness :
    closed_positions (transcribe (fun _ => true) (⟨"nl", 1, 0⟩, [])
        ⟨"/tmp/", "leeg.m4a"⟩ "large-v3" "nl") = [0] :=
  (C10_empty_segments_header_only (fun _ => true) ⟨"nl", 1, 0⟩
    ⟨"/tmp/", "leeg.m4a"⟩ "large-v3" "nl" rfl).2

theorem progress_after_last (segs : List Segment) (n : ℚ) (h : segs ≠ []) :
    progress_after n segs = (segs.getLast h).end_ := by
  induction segs generalizing n with
  | nil => exact absurd rfl h
  | cons s rest ih =>
    cases rest with
    | nil =>
      show n + (s.end_ - n) = s.end_
      ring
    | cons t ts =>
      show progress_after (n + (s.end_ - n)) (t :: ts) = _
      rw [ih (n + (s.end_ - n)) (by simp)]
      rw [List.getLast_cons (by simp : (t :: ts) ≠ [])]

/-- C3 counterexample: a monotonically non-decreasing segment sequence
(a single segment ending at 2.5 s) against a summary duration of 10 s; the
progress bar is closed at position 2.5, not at the duration 10. -/
theorem C3_progress_final_counterexample :
    List.Chain' (fun a b : Segment => a.end_ ≤ b.end_) ([⟨0, 5 / 2, "x"⟩] : List Segment) ∧
    closed_positions (transcribe (fun _ => true)
        (⟨"nl", 97 / 100, 10⟩, ([⟨0, 5 / 2, "x"⟩] : List Segment))
        ⟨"/tmp/", "a.m4a"⟩ "large-v3" "nl") = [5 / 2] ∧
    (5 / 2 : ℚ) ≠ (TranscriptionInfo.mk "nl" (97 / 100) 10).duration := by
  refine ⟨List.chain'_singleton _, ?_, by norm_num⟩
  rw [closed_positions_transcribe _ _ _ _ _ _ rfl]
  show [progress_after 0 ([⟨0, 5 / 2, "x"⟩] : List Segment)] = [5 / 2]
  norm_num [progress_after]

/-- C3 amended: after all segments are consumed the progress bar's final
position equals the end timestamp of the last segment (0 when there is none);
so it equals the summary duration exactly under the extra hypothesis that the
last segment ends at the duration (duration 0 for an empty sequence). -/
theorem C3_progress_final_amended :
    ∀ (fsE : PyPath → Bool) (info : TranscriptionInfo) (segs : List Segment)
      (p : PyPath) (ms lang : String), fsE p = true →
      List.Chain' (fun a b : Segment => a.end_ ≤ b.end_) segs →
      (∀ h : segs ≠ [], (segs.getLast h).end_ = info.duration) →
      (segs = [] → info.duration = 0) →
      closed_positions (transcribe fsE (info, segs) p ms lang) = [info.duration] := by
  intro fsE info segs p ms lang h _ hlast hempty
  rw [closed_positions_transcribe fsE info segs p ms lang h]
  cases segs with
  | nil =>
    rw [hempty rfl]
    rfl
  | cons s rest =>
    rw [progress_after_last (s :: rest) 0 (by simp), hlast (by simp)]

/-- Witness for the amended C3: an engine whose last segment ends exactly at
the reported duration. -/
theorem C3_progress_final_amended_witness :
    closed_positions (transcribe (fun _ => true)
        (⟨"nl", 97 / 100, 10⟩, ([⟨0, 5 / 2, " hallo "⟩, ⟨5 / 2, 10, "wereld"⟩] : List Segment))
        ⟨"/tmp/", "a.m4a"⟩ "large-v3" "nl") =
      [(TranscriptionInfo.mk "nl" (97 / 100) 10).duration] :=
  C3_progress_final_amended (fun _ => true) ⟨"nl", 97 / 100, 10⟩
    [⟨0, 5 / 2, " hallo "⟩, ⟨5 / 2, 10, "wereld"⟩] ⟨"/tmp/", "a.m4a"⟩ "large-v3" "nl" rfl
    (by constructor <;> norm_num) (fun h => rfl) (by simp)

theorem positions_from_cons (n : ℚ) (s : Segment) (rest : List Segment) :
    positions_from n (s :: rest) = n :: positions_from s.end_ rest := by
  rw [positions_from]
  have : n + (s.end_ - n) = s.end_ := by ring
  rw [this]

theorem positions_from_head (n : ℚ) (segs : List Segment) :
    (positions_from n segs).head? = some n := by
  cases segs <;> rfl

theorem chain_le_positions_from :
    ∀ (segs : List Segment) (n : ℚ),
      List.Chain' (fun a b : Segment => a.end_ ≤ b.end_) segs →
      (∀ s, segs.head? = some s → n ≤ s.end_) →
      List.Chain' (fun a b : ℚ => a ≤ b) (positions_from n segs) := by
  intro segs
  induction segs with
  | nil => exact fun n _ _ => List.chain'_singleton n
  | cons s rest ih =>
    intro n hc hh
    rw [positions_from_cons, List.chain'_cons']
    constructor
    · intro b hb
      rw [positions_from_head] at hb
      have hb' : b = s.end_ := by
        simpa using hb.symm
      rw [hb']
      exact hh s rfl
    · exact ih s.end_ (List.Chain'.tail hc)
        (fun t ht => (List.chain'_cons'.mp hc).1 t ht)

/-- C5 counterexample: a sequence with non-decreasing (but negative) end
times on which the indicator's position decreases: the first update delta is
−2, and the visited positions 0, −2, −1 are not monotone. -/
theorem C5_progress_monotone_counterexample :
    List.Chain' (fun a b : Segment => a.end_ ≤ b.end_)
        ([⟨-2, -2, "a"⟩, ⟨-1, -1, "b"⟩] : List Segment) ∧
    updates_of (transcribe (fun _ => true)
        (⟨"nl", 1, 10⟩, ([⟨-2, -2, "a"⟩, ⟨-1, -1, "b"⟩] : List Segment))
        ⟨"/tmp/", "a.m4a"⟩ "large-v3" "nl") = [-2, 1] ∧
    positions_from 0 ([⟨-2, -2, "a"⟩, ⟨-1, -1, "b"⟩] : List Segment) = [0, -2, -1] ∧
    ¬ List.Chain' (fun a b : ℚ => a ≤ b) [0, -2, -1] := by
  refine ⟨?_, ?_, ?_, ?_⟩
  · rw [List.chain'_cons]
    exact ⟨by norm_num, List.chain'_singleton _⟩
  · rw [updates_of_transcribe _ _ _ _ _ _ rfl]
    show updates_from 0 ([⟨-2, -2, "a"⟩, ⟨-1, -1, "b"⟩] : List Segment) = [-2, 1]
    norm_num [updates_from]
  · norm_num [positions_from]
  · rw [List.chain'_cons]
    norm_num

/-- C5 amended: each segment advances the bar by exactly `segment.end` minus
the current position (the trace's update deltas are `updates_from 0 segs`);
for a time-ordered sequence whose end times are also non-negative, the
positions visited by the bar never decrease. -/
theorem C5_progress_monotone_amended :
    ∀ (fsE : PyPath → Bool) (info : TranscriptionInfo) (segs : List Segment)
      (p : PyPath) (ms lang : String), fsE p = true →
      updates_of (transcribe fsE (info, segs) p ms lang) = updates_from 0 segs ∧
      (List.Chain' (fun a b : Segment => a.end_ ≤ b.end_) segs →
        (∀ s ∈ segs, 0 ≤ s.end_) →
        List.Chain' (fun a b : ℚ => a ≤ b) (positions_from 0 segs)) := by
  intro fsE info segs p ms lang h
  refine ⟨updates_of_transcribe fsE info segs p ms lang h, fun hc hnn => ?_⟩
  exact chain_le_positions_from segs 0 hc
    (fun s hs => hnn s (List.mem_of_mem_head? hs))

/-- Witness for the amended C5 on the stub engine output. -/
theorem C5_progress_monotone_amended_witness :
    updates_of (transcribe (fun _ => true)
        (⟨"nl", 97 / 100, 10⟩, ([⟨0, 5 / 2, " hallo "⟩, ⟨5 / 2, 10, "wereld"⟩] : List Segment))
        ⟨"/tmp/", "a.m4a"⟩ "large-v3" "nl") =
      updates_from 0 ([⟨0, 5 / 2, " hallo "⟩, ⟨5 / 2, 10, "wereld"⟩] : List Segment) ∧
    List.Chain' (fun a b : ℚ => a ≤ b)
      (positions_from 0 ([⟨0, 5 / 2, " hallo "⟩, ⟨5 / 2, 10, "wereld"⟩] : List Segment)) :=
  have h := C5_progress_monotone_amended (fun _ => true) ⟨"nl", 97 / 100, 10⟩
    [⟨0, 5 / 2, " hallo "⟩, ⟨5 / 2, 10, "wereld"⟩] ⟨"/tmp/", "a.m4a"⟩ "large-v3" "nl" rfl
  ⟨h.1, h.2 (by constructor <;> norm_num) (by intro s hs; fin_cases hs <;> norm_num)⟩

theorem string_mk_append (s t : String) : String.mk (s.data ++ t.data) = s ++ t := rfl

theorem py_suffix_spec (cs : List Char) (h : py_suffix cs ≠ []) :
    ∃ i, 0 < i ∧ i < cs.length - 1 ∧ py_suffix cs = cs.drop i := by
  unfold py_suffix at h ⊢
  cases hm : (((List.range cs.length).filter (fun i => cs.getD i ' ' = '.')).getLast?) with
  | none =>
    rw [hm] at h
    exact absurd rfl h
  | some i =>
    rw [hm] at h
    by_cases hc : 0 < i ∧ i < cs.length - 1
    · exact ⟨i, hc.1, hc.2, if_pos hc⟩
    · have h' : (if 0 < i ∧ i < cs.length - 1 then cs.drop i else []) ≠ ([] : List Char) := h
      rw [if_neg hc] at h'
      exact absurd rfl h'

/-- C6: on an existing input whose name carries an extension, the single
output path is the input path with that extension replaced — not appended —
by `.txt`: the name splits as `stem ++ suffix` and the output name is
`stem ++ ".txt"`. -/
theorem C6_suffix_replaced :
    ∀ (fsE : PyPath → Bool) (info : TranscriptionInfo) (segs : List Segment)
      (p : PyPath) (ms lang : String), fsE p = true →
      py_suffix p.name.data ≠ [] →
      ∃ stem : List Char,
        p.name.data = stem ++ py_suffix p.name.data ∧
        (writes_of (transcribe fsE (info, segs) p ms lang)).map Prod.fst =
          [p.dir ++ String.mk (stem ++ ".txt".data)] := by
  intro fsE info segs p ms lang h hsuf
  obtain ⟨i, hi0, hilt, heq⟩ := py_suffix_spec p.name.data hsuf
  have hlen : p.name.data.length - (py_suffix p.name.data).length = i := by
    rw [heq, List.length_drop]
    omega
  refine ⟨p.name.data.take i, ?_, ?_⟩
  · rw [heq]
    exact (List.take_append_drop i p.name.data).symm
  · rw [writes_of_transcribe fsE info segs p ms lang h]
    simp only [List.map_cons, List.map_nil]
    congr 1
    show (p.with_suffix ".txt").str = p.dir ++ String.mk (p.name.data.take i ++ ".txt".data)
    simp only [PyPath.with_suffix, PyPath.str, with_suffix_name]
    rw [if_neg hsuf, hlen]

/-- Witness for C6 on the first hard-coded input name. -/
theorem C6_suffix_replaced_witness :
    ∃ stem : List Char,
      (PyPath.mk "/home/u/Downloads/" "Helene en AnneMarie.m4a").name.data =
        stem ++ py_suffix (PyPath.mk "/home/u/Downloads/" "Helene en AnneMarie.m4a").name.data ∧
      (writes_of (transcribe (fun _ => true) (⟨"nl", 1, 0⟩, [])
          ⟨"/home/u/Downloads/", "Helene en AnneMarie.m4a"⟩ "large-v3" "nl")).map Prod.fst =
        ["/home/u/Downloads/" ++ String.mk (stem ++ ".txt".data)] :=
  C6_suffix_replaced (fun _ => true) ⟨"nl", 1, 0⟩ []
    ⟨"/home/u/Downloads/", "Helene en AnneMarie.m4a"⟩ "large-v3" "nl" rfl (by decide)

/-- C9: on an existing input whose name has no extension at all, the output
path is the input path with `.txt` appended to the whole name. -/
theorem C9_no_extension_appended :
    ∀ (fsE : PyPath → Bool) (info : TranscriptionInfo) (segs : List Segment)
      (p : PyPath) (ms lang : String), fsE p = true →
      py_suffix p.name.data = [] → p.name ≠ "" →
      (writes_of (transcribe fsE (info, segs) p ms lang)).map Prod.fst =
        [p.dir ++ (p.name ++ ".txt")] := by
  intro fsE info segs p ms lang h hsuf _
  rw [writes_of_transcribe fsE info segs p ms lang h]
  simp only [List.map_cons, List.map_nil]
  congr 1
  show (p.with_suffix ".txt").str = p.dir ++ (p.name ++ ".txt")
  simp only [PyPath.with_suffix, PyPath.str, with_suffix_name]
  rw [if_pos hsuf, string_mk_append]

/-- Witness for C9 on a name without any dot. -/
theorem C9_no_extension_appended_witness :
    (writes_of (transcribe (fun _ => true) (⟨"nl", 1, 0⟩, [])
        ⟨"/tmp/", "opname"⟩ "large-v3" "nl")).map Prod.fst =
      ["/tmp/" ++ ("opname" ++ ".txt")] :=
  C9_no_extension_appended (fun _ => true) ⟨"nl", 1, 0⟩ [] ⟨"/tmp/", "opname"⟩
    "large-v3" "nl" rfl (by decide) (by decide)

theorem apply_writes_append (fs : String → Option String) (a b : List Event) :
    apply_writes fs (a ++ b) = apply_writes (apply_writes fs a) b := by
  induction a generalizing fs with
  | nil => rfl
  | cons e rest ih => cases e <;> simp [apply_writes, ih]

theorem apply_writes_loop (fs : String → Option String) (n : ℚ) (segs : List Segment) :
    apply_writes fs (loop_events n segs) = fs := by
  induction segs generalizing n fs with
  | nil => rfl
  | cons s rest ih => simp [loop_events, apply_writes, ih]

theorem apply_writes_transcribe (fs : String → Option String) (fsE : PyPath → Bool)
    (info : TranscriptionInfo) (segs : List Segment) (p : PyPath) (ms lang : String)
    (h : fsE p = true) :
    apply_writes fs (transcribe fsE (info, segs) p ms lang) =
      fun x => if x = (p.with_suffix ".txt").str
        then some (transcript_content p.name info segs) else fs x := by
  rw [transcribe_of_exists fsE (info, segs) p ms lang h, apply_writes_append,
    apply_writes_append, apply_writes_loop]
  rfl

/-- C7: running the transcription again with the same input and the same
engine output leaves the output file holding exactly the content of a single
run: the write fully replaces any previous content (no append, no merge),
whatever was in the filesystem before. -/
theorem C7_output_fully_overwritten :
    ∀ (fs : String → Option String) (fsE : PyPath → Bool) (info : TranscriptionInfo)
      (segs : List Segment) (p : PyPath) (ms lang : String), fsE p = true →
      apply_writes fs (transcribe fsE (info, segs) p ms lang)
          ((p.with_suffix ".txt").str) =
        some (transcript_content p.name info segs) ∧
      ∀ x, apply_writes (apply_writes fs (transcribe fsE (info, segs) p ms lang))
          (transcribe fsE (info, segs) p ms lang) x =
        apply_writes fs (transcribe fsE (info, segs) p ms lang) x := by
  intro fs fsE info segs p ms lang h
  constructor
  · rw [apply_writes_transcribe fs fsE info segs p ms lang h]
    simp
  · intro x
    rw [apply_writes_transcribe _ fsE info segs p ms lang h,
      apply_writes_transcribe fs fsE info segs p ms lang h]
    by_cases hx : x = (p.with_suffix ".txt").str <;> simp [hx]

/-- Witness for C7: a filesystem whose output path already holds stale
content is fully overwritten. -/
theorem C7_output_fully_overwritten_witness :
    apply_writes (fun _ => some "oude inhoud")
        (transcribe (fun _ => true) (⟨"nl", 1, 0⟩, []) ⟨"/tmp/", "a.m4a"⟩ "large-v3" "nl")
        (((PyPath.mk "/tmp/" "a.m4a").with_suffix ".txt").str) =
      some (transcript_content "a.m4a" ⟨"nl", 1, 0⟩ []) :=
  (C7_output_fully_overwritten (fun _ => some "oude inhoud") (fun _ => true)
    ⟨"nl", 1, 0⟩ [] ⟨"/tmp/", "a.m4a"⟩ "large-v3" "nl" rfl).1

theorem ends_in_exit_missing (fsE : PyPath → Bool) (engine : TranscriptionInfo × List Segment)
    (p : PyPath) (ms lang : String) (h : fsE p = false) :
    ends_in_exit (transcribe fsE engine p ms lang) = true := by
  rw [transcribe, if_pos h]
  rfl

theorem ends_in_exit_success (fsE : PyPath → Bool) (engine : TranscriptionInfo × List Segment)
    (p : PyPath) (ms lang : String) (h : fsE p = true) :
    ends_in_exit (transcribe fsE engine p ms lang) = false := by
  rw [transcribe_of_exists fsE engine p ms lang h, ends_in_exit]
  rw [show ∀ a b : List Event, ∀ x y z : Event, a ++ b ++ [x, y, z] = (a ++ b ++ [x, y]) ++ [z]
    from fun a b x y z => by simp]
  rw [List.getLast?_concat]

theorem transcribe_of_missing (fsE : PyPath → Bool) (engine : TranscriptionInfo × List Segment)
    (p : PyPath) (ms lang : String) (h : fsE p = false) :
    transcribe fsE engine p ms lang =
      [Event.printed ("Bestand niet gevonden: " ++ p.str), Event.exited 1] := by
  rw [transcribe, if_pos h]

/-- C8: the entry point processes the hard-coded two-path list sequentially,
one `transcribe` call per path with a separator print after each; when the
first path is missing the batch is just the error-and-exit trace (the second
file is never touched); when only the second is missing the first file's full
trace is followed by the error-and-exit trace; when both exist both files are
processed in order. -/
theorem C8_batch_sequential_failfast :
    ∀ (home : String) (fsE : PyPath → Bool)
      (engF : PyPath → TranscriptionInfo × List Segment),
      (fsE ⟨home ++ "/Downloads/", "Helene en AnneMarie.m4a"⟩ = false →
        run_batch fsE engF (audio_files home) =
          [Event.printed ("Bestand niet gevonden: " ++
            (PyPath.mk (home ++ "/Downloads/") "Helene en AnneMarie.m4a").str),
           Event.exited 1]) ∧
      (fsE ⟨home ++ "/Downloads/", "Helene en AnneMarie.m4a"⟩ = true →
        fsE ⟨home ++ "/Downloads/", "Joke Swiebel.m4a"⟩ = false →
        run_batch fsE engF (audio_files home) =
          transcribe fsE (engF ⟨home ++ "/Downloads/", "Helene en AnneMarie.m4a"⟩)
            ⟨home ++ "/Downloads/", "Helene en AnneMarie.m4a"⟩ ++
          ([Event.printed ("\n" ++ repeatChar 60 '=' ++ "\n")] ++
            [Event.printed ("Bestand niet gevonden: " ++
              (PyPath.mk (home ++ "/Downloads/") "Joke Swiebel.m4a").str),
             Event.exited 1])) ∧
      (fsE ⟨home ++ "/Downloads/", "Helene en AnneMarie.m4a"⟩ = true →
        fsE ⟨home ++ "/Downloads/", "Joke Swiebel.m4a"⟩ = true →
        run_batch fsE engF (audio_files home) =
          transcribe fsE (engF ⟨home ++ "/Downloads/", "Helene en AnneMarie.m4a"⟩)
            ⟨home ++ "/Downloads/", "Helene en AnneMarie.m4a"⟩ ++
          ([Event.printed ("\n" ++ repeatChar 60 '=' ++ "\n")] ++
            (transcribe fsE (engF ⟨home ++ "/Downloads/", "Joke Swiebel.m4a"⟩)
              ⟨home ++ "/Downloads/", "Joke Swiebel.m4a"⟩ ++
             ([Event.printed ("\n" ++ repeatChar 60 '=' ++ "\n")] ++ [])))) := by
  intro home fsE engF
  refine ⟨?_, ?_, ?_⟩
  · intro h1
    rw [audio_files, run_batch]
    rw [ends_in_exit_missing fsE _ _ _ _ h1]
    rw [if_pos rfl]
    exact transcribe_of_missing fsE _ _ _ _ h1
  · intro h1 h2
    rw [audio_files, run_batch]
    rw [ends_in_exit_success fsE _ _ _ _ h1]
    rw [if_neg (by simp)]
    rw [run_batch]
    rw [ends_in_exit_missing fsE _ _ _ _ h2]
    rw [if_pos rfl]
    rw [transcribe_of_missing fsE _ _ _ _ h2]
    simp [List.append_assoc]
  · intro h1 h2
    rw [audio_files, run_batch]
    rw [ends_in_exit_success fsE _ _ _ _ h1]
    rw [if_neg (by simp)]
    rw [run_batch]
    rw [ends_in_exit_success fsE _ _ _ _ h2]
    rw [if_neg (by simp)]
    rw [run_batch]
    simp [List.append_assoc]

/-- Witness for C8: both hard-coded files exist; the batch is the two traces
in order with separators. -/
theorem C8_batch_sequential_failfast_witness :
    run_batch (fun _ => true) (fun _ => (⟨"nl", 1, 0⟩, [])) (audio_files "/home/u") =
      transcribe (fun _ => true) (⟨"nl", 1, 0⟩, [])
        ⟨"/home/u" ++ "/Downloads/", "Helene en AnneMarie.m4a"⟩ ++
      ([Event.printed ("\n" ++ repeatChar 60 '=' ++ "\n")] ++
        (transcribe (fun _ => true) (⟨"nl", 1, 0⟩, [])
          ⟨"/home/u" ++ "/Downloads/", "Joke Swiebel.m4a"⟩ ++
         ([Event.printed ("\n" ++ repeatChar 60 '=' ++ "\n")] ++ []))) :=
  (C8_batch_sequential_failfast "/home/u" (fun _ => true)
    (fun _ => (⟨"nl", 1, 0⟩, []))).2.2 rfl rfl
